import Mathlib

/-!
Shallow embedding of the AsyncLogSystem repository (C++), covering the
components the verified claims are about:

* `async_log` namespace: `LogLevel`, `LogMessage`, `LogConfig`
  (include/logTypes.hpp), the `LockFreeQueue` contents
  (include/lockFreeQueue.hpp) modelled as the FIFO list of enqueued
  payloads, the `LogDispatcher` (src/logDispatcher.cpp), the decorator
  chain (src/logDecorator.cpp) and the `LogManager` pipeline controller
  (src/logManager.cpp).
* `log_system` namespace: the legacy variant (`LogSystem`,
  `AsyncLogSystem` in src/log_system.cpp and src/async_log_system.cpp).

Wall-clock readings (timestamps) and thread identities are parameters of
the embedded operations; machine state observed through side channels
(stdout / stderr) is modelled as explicit lists carried in the state.
-/

namespace async_log

/-- Log levels, values 0..4 as in `enum class LogLevel : uint8_t`
(include/logTypes.hpp). -/
inductive LogLevel where
  | DEBUG
  | INFO
  | WARN
  | ERROR
  | FATAL
deriving DecidableEq, Repr

/-- The numeric value `static_cast<int>(level)` used by
`LogManager::shouldLog`. -/
def LogLevel.toNat : LogLevel → Nat
  | .DEBUG => 0
  | .INFO => 1
  | .WARN => 2
  | .ERROR => 3
  | .FATAL => 4

/-- Embeds `levelToString` (src/logTypes.cpp). -/
def levelToString : LogLevel → String
  | .DEBUG => "DEBUG"
  | .INFO => "INFO"
  | .WARN => "WARN"
  | .ERROR => "ERROR"
  | .FATAL => "FATAL"

/-- Embeds `struct LogMessage` (include/logTypes.hpp).  The
`system_clock::time_point` timestamp is modelled as seconds since epoch
and the `std::thread::id` as the hash value the code itself uses when it
needs a number. -/
structure LogMessage where
  level : LogLevel
  message : String
  file : String
  line : Int
  function : String
  timestamp : Nat
  threadId : Nat
deriving DecidableEq, Repr

/-- The two-argument `LogMessage(lvl, msg)` constructor with its default
arguments; creation time and producing thread are inputs. -/
def mkLogMessage (lvl : LogLevel) (msg : String) (ts thr : Nat) : LogMessage :=
  { level := lvl, message := msg, file := "", line := 0, function := ""
    timestamp := ts, threadId := thr }

/-- The five-argument `LogMessage(lvl, msg, f, ln, func)` constructor. -/
def mkLogMessageAt (lvl : LogLevel) (msg f : String) (ln : Int) (func : String)
    (ts thr : Nat) : LogMessage :=
  { level := lvl, message := msg, file := f, line := ln, function := func
    timestamp := ts, threadId := thr }

/-- Embeds `struct LogConfig` (include/logTypes.hpp) with its default member
values. -/
structure LogConfig where
  minLevel : LogLevel := .DEBUG
  format : String := "[\x7blevel\x7d] \x7btime\x7d \x7bfile\x7d:\x7bline\x7d - \x7bmessage\x7d"
  maxQueueSize : Nat := 10000
  flushInterval : Nat := 1000
  enableTimestamp : Bool := true
  enableColor : Bool := true
  enableThreadId : Bool := true
  logDir : String := "./logs"
  logFile : String := "app.log"
  maxFileSize : Nat := 10 * 1024 * 1024
  maxFileCount : Nat := 5
deriving DecidableEq, Repr

/-!  ## LockFreeQueue (include/lockFreeQueue.hpp)

The queue is a singly linked list with a sentinel head; its observable
contents are the FIFO sequence of payloads between head and tail.  The
single-threaded (linearized) semantics of its operations act on that
sequence. -/

/-- Embeds `LockFreeQueue::push`: link a new node after the current tail. -/
def queuePush {α : Type} (q : List α) (item : α) : List α :=
  q ++ [item]

/-- Embeds `LockFreeQueue::pop`: swing head past the sentinel to the first real
node and move its payload out; returns `none` when head meets tail
(empty queue). -/
def queuePop {α : Type} : List α → Option α × List α
  | [] => (none, [])
  | x :: xs => (some x, xs)

/-- Embeds `LockFreeQueue::getSize` (the `size_` counter under completed
operations). -/
def queueSize {α : Type} (q : List α) : Nat := q.length

/-- Embeds `LockFreeQueue::popBatch`: `while (count < maxCount && pop(item))`
collect popped items in order; returns the batch and the remaining
queue (the C++ returns the count, which is the batch's length). -/
def popBatch {α : Type} : List α → Nat → List α × List α
  | q, 0 => ([], q)
  | [], _ + 1 => ([], [])
  | x :: xs, n + 1 =>
    let r := popBatch xs n
    (x :: r.1, r.2)

/-- Embeds `LockFreeQueue::pushBatch`: push every item in order. -/
def pushBatch {α : Type} (q : List α) (items : List α) : List α :=
  items.foldl queuePush q

/-!  ## LogDispatcher (src/logDispatcher.cpp)

A sink (`ILogOutput`) is observed through the two properties the
dispatcher queries: availability, and whether `write` for a given
message raises a `std::exception` (caught inside `dispatch`). -/

/-- A registered output as the dispatcher sees it. -/
structure Sink where
  available : Bool
  writeThrows : LogMessage → Bool

/-- Embeds `class LogDispatcher` state: the output collection, optional message
filter, optional route function, default routing strategy and the
atomic round-robin counter. -/
structure LogDispatcher where
  outputs : List Sink
  messageFilter : Option (LogMessage → Bool)
  routeFunction : Option (LogMessage → Nat)
  routingStrategy : Int
  roundRobinCounter : Nat

/-- The `LogDispatcher()` constructor: strategy 0, counter 0, no filter
or router, no outputs. -/
def LogDispatcher.init : LogDispatcher :=
  { outputs := [], messageFilter := none, routeFunction := none
    routingStrategy := 0, roundRobinCounter := 0 }

/-- Embeds `LogDispatcher::shouldDispatch`: evaluate the filter when set,
otherwise pass. -/
def shouldDispatch (d : LogDispatcher) (msg : LogMessage) : Bool :=
  match d.messageFilter with
  | some f => f msg
  | none => true

/-- Embeds `LogDispatcher::roundRobinRouting`: empty collection routes nowhere;
otherwise the post-incremented counter modulo the output count selects
one index.  Returns the indices and the dispatcher with the bumped
counter. -/
def roundRobinRouting (d : LogDispatcher) : List Nat × LogDispatcher :=
  if d.outputs.length = 0 then ([], d)
  else ([d.roundRobinCounter % d.outputs.length],
        { d with roundRobinCounter := d.roundRobinCounter + 1 })

/-- Embeds `LogDispatcher::randomRouting`: a uniform draw seeded from the
wall clock; the draw is a nondeterministic input `rand`, reduced modulo
the output count exactly as `uniform_int_distribution(0, size-1)`
constrains it. -/
def randomRouting (d : LogDispatcher) (rand : Nat) : List Nat :=
  if d.outputs.length = 0 then []
  else [rand % d.outputs.length]

/-- Embeds `LogDispatcher::defaultRouting`: strategy 1 is round-robin, 2 is
random, anything else broadcasts to every index. -/
def defaultRouting (d : LogDispatcher) (rand : Nat) : List Nat × LogDispatcher :=
  if d.routingStrategy = 1 then roundRobinRouting d
  else if d.routingStrategy = 2 then (randomRouting d rand, d)
  else (List.range d.outputs.length, d)

/-- Embeds `LogDispatcher::getTargetOutputs`: a set route function yields its
index when in range and an empty target set otherwise; with no route
function the default routing applies. -/
def getTargetOutputs (d : LogDispatcher) (rand : Nat) (msg : LogMessage) :
    List Nat × LogDispatcher :=
  match d.routeFunction with
  | some f =>
    let targetIndex := f msg
    if targetIndex < d.outputs.length then ([targetIndex], d) else ([], d)
  | none => defaultRouting d rand

/-- The `for (size_t index : targetOutputs)` loop of
`LogDispatcher::dispatch`: for each in-range available output, `write`
is invoked inside a try/catch, and the success counter grows unless the
write throws.  Returns the success count and, in order, the indices on
which `write` was actually invoked. -/
def writeTargets (outputs : List Sink) (msg : LogMessage) :
    List Nat → Nat × List Nat
  | [] => (0, [])
  | i :: rest =>
    match outputs[i]? with
    | some s =>
      if s.available then
        let r := writeTargets outputs msg rest
        ((if s.writeThrows msg then 0 else 1) + r.1, i :: r.2)
      else writeTargets outputs msg rest
    | none => writeTargets outputs msg rest

/-- Embeds `LogDispatcher::dispatch`: filter first (rejected records return 0
with no output interaction), then route, then write to each target with
per-sink failure isolation.  Result: success count, invoked indices,
updated dispatcher. -/
def dispatch (d : LogDispatcher) (rand : Nat) (msg : LogMessage) :
    Nat × List Nat × LogDispatcher :=
  if shouldDispatch d msg = false then (0, [], d)
  else
    let tr := getTargetOutputs d rand msg
    let w := writeTargets d.outputs msg tr.1
    (w.1, w.2, tr.2)

/-- Dispatch a sequence of records, threading the dispatcher state;
collects each record's invoked-index list (used for the routing
claims). -/
def dispatchSeq (d : LogDispatcher) : List LogMessage → List (List Nat) × LogDispatcher
  | [] => ([], d)
  | m :: ms =>
    let r := dispatch d 0 m
    let rest := dispatchSeq r.2.2 ms
    (r.2.1 :: rest.1, rest.2)

/-!  ## Decorator chain (src/logDecorator.cpp)

A chain is a tree of decorators over a capturing test sink (the sink
records every message written to it).  `ColorDecorator::getColorCode`
and friends are embedded literally; the per-write current time of
`TimestampDecorator` is the wall-clock input `ts` of `write`. -/

/-- Embeds `ColorDecorator::getColorCode`: total severity → ANSI code table. -/
def getColorCode : LogLevel → String
  | .DEBUG => "\x1b[36m"
  | .INFO => "\x1b[32m"
  | .WARN => "\x1b[33m"
  | .ERROR => "\x1b[31m"
  | .FATAL => "\x1b[35m"

/-- Embeds `ColorDecorator::getResetCode`. -/
def getResetCode : String := "\x1b[0m"

/-- Embeds `\s` of `std::regex`: space, tab, newline, carriage return, vertical
tab, form feed. -/
def isRegexSpace (c : Char) : Bool :=
  c = ' ' || c = '\t' || c = '\n' || c = '\r' || c = '\x0b' || c = '\x0c'

/-- Embeds `regex_replace(data, regex("\\s+"), " ")`: every maximal run of
whitespace collapses to one space. -/
def collapseSpaces : List Char → List Char
  | [] => []
  | c :: cs =>
    if isRegexSpace c then ' ' :: collapseSpaces (cs.dropWhile isRegexSpace)
    else c :: collapseSpaces cs
termination_by l => l.length
decreasing_by
  · exact Nat.lt_succ_of_le ((List.dropWhile_suffix _).sublist.length_le)
  · simp

/-- The characters `" \t\n\r"` trimmed by `CompressionDecorator::compress`
after collapsing. -/
def isTrimChar (c : Char) : Bool :=
  c = ' ' || c = '\t' || c = '\n' || c = '\r'

/-- Embeds `CompressionDecorator::compress`: collapse whitespace runs, strip
leading and trailing trim characters, tag with `"[COMPRESSED] "`. -/
def compress (data : String) : String :=
  let collapsed := collapseSpaces data.data
  let trimmed := ((collapsed.dropWhile isTrimChar).reverse.dropWhile isTrimChar).reverse
  "[COMPRESSED] " ++ String.mk trimmed

/-- Embeds `FormatDecorator::replacePlaceholders`: the `std::map` iterates its
keys in lexicographic order (`\x7bfile\x7d`, `\x7bfunction\x7d`, `\x7blevel\x7d`,
`\x7bline\x7d`, `\x7bmessage\x7d`, `\x7bthread\x7d`, `\x7btime\x7d`); each placeholder is
replaced everywhere, scanning left to right and skipping the inserted
value. -/
def replacePlaceholders (format : String) (msg : LogMessage) : String :=
  let r := format.replace "\x7bfile\x7d" msg.file
  let r := r.replace "\x7bfunction\x7d" msg.function
  let r := r.replace "\x7blevel\x7d" (levelToString msg.level)
  let r := r.replace "\x7bline\x7d" (toString msg.line)
  let r := r.replace "\x7bmessage\x7d" msg.message
  let r := r.replace "\x7bthread\x7d" (toString msg.threadId)
  r.replace "\x7btime\x7d" (toString msg.timestamp)

/-- Embeds `FilterDecorator::shouldPass`: no filter means pass. -/
def shouldPass (filter : Option (LogMessage → Bool)) (msg : LogMessage) : Bool :=
  match filter with
  | some f => f msg
  | none => true

/-- A decorator chain over capturing sinks: each constructor holds the
object-level state of the corresponding C++ class and exclusively owns
its wrapped output. -/
inductive OutputTree where
  | sink (captured : List LogMessage)
  | timestampDec (format : String) (wrapped : OutputTree)
  | colorDec (enableColor : Bool) (wrapped : OutputTree)
  | compressionDec (enableCompression : Bool) (minSize : Nat) (wrapped : OutputTree)
  | filterDec (filter : Option (LogMessage → Bool)) (wrapped : OutputTree)
  | formatDec (format : String) (wrapped : OutputTree)

/-- The virtual `write(msg)` of each decorator (src/logDecorator.cpp):
every decorator builds a copy of the incoming record with a transformed
message and forwards the copy; the filter decorator forwards the record
untouched or not at all.  `ts` is the formatted current time a
`TimestampDecorator` reads at this write. -/
def writeTree (ts : String) : OutputTree → LogMessage → OutputTree
  | .sink captured, msg => .sink (captured ++ [msg])
  | .timestampDec fmt w, msg =>
    .timestampDec fmt
      (writeTree ts w { msg with message := "[" ++ ts ++ "] " ++ msg.message })
  | .colorDec enable w, msg =>
    .colorDec enable
      (if enable then
        writeTree ts w
          { msg with message := getColorCode msg.level ++ msg.message ++ getResetCode }
      else writeTree ts w msg)
  | .compressionDec enable minSize w, msg =>
    .compressionDec enable minSize
      (if enable && decide (minSize ≤ msg.message.length) then
        writeTree ts w { msg with message := compress msg.message }
      else writeTree ts w msg)
  | .filterDec filter w, msg =>
    .filterDec filter (if shouldPass filter msg then writeTree ts w msg else w)
  | .formatDec fmt w, msg =>
    .formatDec fmt
      (writeTree ts w { msg with message := replacePlaceholders fmt msg })

/-- All records captured by the sinks of a chain, outermost-first. -/
def capturedRecords : OutputTree → List LogMessage
  | .sink captured => captured
  | .timestampDec _ w => capturedRecords w
  | .colorDec _ w => capturedRecords w
  | .compressionDec _ _ w => capturedRecords w
  | .filterDec _ w => capturedRecords w
  | .formatDec _ w => capturedRecords w

/-!  ## LogManager (src/logManager.cpp)

The pipeline controller: a message queue, a config snapshot (`config_`
is a `unique_ptr`, hence `Option`), the `running_` / `shouldStop_`
flags, and the worker thread.  `processMessage(msg)` forwards `msg` to
`dispatcher_->dispatch(msg)`; the state records the FIFO sequence of
records so forwarded (`delivered`) and the number of
`dispatcher_->flush()` calls (`dispatcherFlushes`) — the dispatcher's
own behaviour on those calls is verified separately above. -/

structure LogManagerS where
  running : Bool
  shouldStop : Bool
  config : Option LogConfig
  queue : List LogMessage
  delivered : List LogMessage
  dispatcherFlushes : Nat

/-- The `LogManager()` constructor: not running, default config
installed by `initializeDefaultConfig`, empty queue. -/
def LogManagerS.init : LogManagerS :=
  { running := false, shouldStop := false, config := some {}
    queue := [], delivered := [], dispatcherFlushes := 0 }

/-- Embeds `LogManager::shouldLog`: no config means log everything, otherwise
compare the numeric level against `config_->minLevel`. -/
def LogManagerS.shouldLog (s : LogManagerS) (level : LogLevel) : Bool :=
  match s.config with
  | none => true
  | some c => decide (c.minLevel.toNat ≤ level.toNat)

/-- Embeds `LogManager::log(level, message)`: drop below-threshold records
without touching the queue, otherwise construct the record and push it.
`ts`/`thr` are the record's creation time and producing thread. -/
def LogManagerS.log (s : LogManagerS) (level : LogLevel) (message : String)
    (ts thr : Nat) : LogManagerS :=
  if s.shouldLog level = false then s
  else { s with queue := queuePush s.queue (mkLogMessage level message ts thr) }

/-- Embeds `LogManager::log(level, message, file, line, function)`. -/
def LogManagerS.logAt (s : LogManagerS) (level : LogLevel)
    (message file : String) (line : Int) (function : String)
    (ts thr : Nat) : LogManagerS :=
  if s.shouldLog level = false then s
  else { s with queue := queuePush s.queue (mkLogMessageAt level message file line function ts thr) }

/-- Embeds `LogManager::debug`. -/
def LogManagerS.debug (s : LogManagerS) (message : String) (ts thr : Nat) : LogManagerS :=
  s.log .DEBUG message ts thr

/-- Embeds `LogManager::info`. -/
def LogManagerS.info (s : LogManagerS) (message : String) (ts thr : Nat) : LogManagerS :=
  s.log .INFO message ts thr

/-- Embeds `LogManager::warn`. -/
def LogManagerS.warn (s : LogManagerS) (message : String) (ts thr : Nat) : LogManagerS :=
  s.log .WARN message ts thr

/-- Embeds `LogManager::error`. -/
def LogManagerS.error (s : LogManagerS) (message : String) (ts thr : Nat) : LogManagerS :=
  s.log .ERROR message ts thr

/-- Embeds `LogManager::fatal`. -/
def LogManagerS.fatal (s : LogManagerS) (message : String) (ts thr : Nat) : LogManagerS :=
  s.log .FATAL message ts thr

/-- The `batchSize` constant of `LogManager::workerFunction`. -/
def workerBatchSize : Nat := 100

/-- One iteration of the worker's main loop: exit when `shouldStop_` is
set; otherwise pop a batch and forward each record (an empty batch makes
the thread wait on the condition variable, leaving the state
unchanged). -/
def workerStep (s : LogManagerS) : LogManagerS :=
  if s.shouldStop then s
  else
    let pb := popBatch s.queue workerBatchSize
    { s with queue := pb.2, delivered := s.delivered ++ pb.1 }

/-- The worker's final `while (popBatch(...) > 0)` loop, with enough
fuel to reach the empty queue. -/
def drainLoop (batch : Nat) : Nat → List LogMessage → List LogMessage × List LogMessage
  | 0, q => ([], q)
  | fuel + 1, q =>
    let pb := popBatch q batch
    if pb.1.length = 0 then ([], pb.2)
    else
      let rest := drainLoop batch fuel pb.2
      (pb.1 ++ rest.1, rest.2)

/-- The worker thread after the stop signal: run the final drain loop
and forward every drained record in order. -/
def workerFinish (s : LogManagerS) : LogManagerS :=
  let d := drainLoop workerBatchSize s.queue.length s.queue
  { s with queue := d.2, delivered := s.delivered ++ d.1 }

/-- Embeds `LogManager::flush`: `dispatcher_->flush()`, then busy-wait until
the queue is empty (inside `stop` the queue is already drained, so the
wait returns at once). -/
def LogManagerS.flushOp (s : LogManagerS) : LogManagerS :=
  { s with dispatcherFlushes := s.dispatcherFlushes + 1 }

/-- Embeds `LogManager::start`: no-op returning true when already running;
otherwise clear `shouldStop_`, set `running_` and spawn the worker. -/
def LogManagerS.start (s : LogManagerS) : LogManagerS × Bool :=
  if s.running then (s, true)
  else ({ s with shouldStop := false, running := true }, true)

/-- Embeds `LogManager::stop`: no-op when not running; otherwise set
`shouldStop_`, clear `running_`, join the worker (which runs its final
drain), then flush. -/
def LogManagerS.stop (s : LogManagerS) : LogManagerS :=
  if s.running = false then s
  else
    LogManagerS.flushOp (workerFinish { s with shouldStop := true, running := false })

/-- The in-range-and-available test of the dispatch loop: `write` is
invoked on output `i` exactly when the index is in range and the output
reports itself available. -/
def sinkInvocable (outputs : List Sink) (i : Nat) : Bool :=
  match outputs[i]? with
  | some s => s.available
  | none => false

/-- Output `i` counts as a success for `msg` when its `write` is invoked
and does not throw. -/
def sinkSucceeds (outputs : List Sink) (msg : LogMessage) (i : Nat) : Bool :=
  match outputs[i]? with
  | some s => s.available && !s.writeThrows msg
  | none => false

/-- Two records that agree on every field except possibly `message`:
what a decorator preserves when it forwards its transformed copy. -/
def agreesExceptMessage (a b : LogMessage) : Prop :=
  b.level = a.level ∧ b.file = a.file ∧ b.line = a.line ∧
  b.function = a.function ∧ b.timestamp = a.timestamp ∧ b.threadId = a.threadId

end async_log

namespace log_system

/-- Embeds `enum class LogLevel` of the legacy variant (include/log_types.h),
values 0..5. -/
inductive LogLevel where
  | TRACE
  | DEBUG_LEVEL
  | INFO
  | WARN
  | ERROR
  | FATAL
deriving DecidableEq, Repr

/-- The comparison `level < config.minLevel` in `LogSystem::log`. -/
def LogLevel.toNat : LogLevel → Nat
  | .TRACE => 0
  | .DEBUG_LEVEL => 1
  | .INFO => 2
  | .WARN => 3
  | .ERROR => 4
  | .FATAL => 5

/-- Embeds `struct LogMessage` (include/log_types.h); the creation timestamp is
kept as seconds since epoch. -/
structure LogMessage where
  level : LogLevel
  message : String
  timestamp : Nat
deriving DecidableEq, Repr

/-- Embeds `struct LogConfig` (include/log_types.h) with its defaults. -/
structure LogConfig where
  minLevel : LogLevel := .INFO
  enableConsole : Bool := true
  timeFormat : String := "%Y-%m-%d %H:%M:%S"
deriving DecidableEq, Repr

/-- The level string of `LogSystem::formatMessage` (note the padded
`"INFO "` and `"WARN "`). -/
def levelString : LogLevel → String
  | .TRACE => "TRACE"
  | .DEBUG_LEVEL => "DEBUG"
  | .INFO => "INFO "
  | .WARN => "WARN "
  | .ERROR => "ERROR"
  | .FATAL => "FATAL"

/-- Embeds `LogSystem::formatMessage`; `timeStr` is the formatted wall-clock
reading of `getCurrentTimestamp`. -/
def formatMessage (timeStr : String) (msg : LogMessage) : String :=
  "[" ++ timeStr ++ "] [" ++ levelString msg.level ++ "] " ++ msg.message

/-- Embeds `class LogSystem` (src/log_system.cpp) state: the config, the
`initialized` flag, and the sequence of lines written to stdout by
`writeToConsole`. -/
structure LogSystemS where
  config : LogConfig
  initialized : Bool
  consoleLines : List String
deriving DecidableEq, Repr

/-- Embeds `LogSystem::writeToConsole`: skip when console output is disabled,
otherwise print the formatted message. -/
def writeToConsole (s : LogSystemS) (timeStr : String) (msg : LogMessage) : LogSystemS :=
  if s.config.enableConsole = false then s
  else { s with consoleLines := s.consoleLines ++ [formatMessage timeStr msg] }

/-- Embeds `LogSystem::log`: below-threshold records return immediately,
otherwise the record goes to the console. -/
def logSync (s : LogSystemS) (level : LogLevel) (message : String)
    (ts : Nat) (timeStr : String) : LogSystemS :=
  if level.toNat < s.config.minLevel.toNat then s
  else writeToConsole s timeStr { level := level, message := message, timestamp := ts }

/-- Embeds `class AsyncLogSystem` (src/async_log_system.cpp) state: the
inherited `LogSystem`, the `ThreadSafeQueue` contents, the flags and
tuning members of the constructor, and the lines written to stderr. -/
structure AsyncLogSystemS where
  base : LogSystemS
  queue : List LogMessage
  running : Bool
  initialized : Bool
  maxQueueSize : Nat
  workerTimeoutMs : Nat
  cerrLines : List String
deriving DecidableEq, Repr

/-- The `AsyncLogSystem()` constructor. -/
def AsyncLogSystemS.init (base : LogSystemS) : AsyncLogSystemS :=
  { base := base, queue := [], running := false, initialized := false
    maxQueueSize := 10000, workerTimeoutMs := 100, cerrLines := [] }

/-- The warning `logAsync` prints to stderr when the queue is full. -/
def queueFullWarning (message : String) : String :=
  "[AsyncLogSystem] 警告：队列已满，丢弃日志消息: " ++ message

/-- Embeds `AsyncLogSystem::logAsync`: fall back to the synchronous
`LogSystem::log` when not running; drop the record with a stderr
warning when the queue has reached `maxQueueSize_`; otherwise push it
onto the queue. -/
def logAsync (a : AsyncLogSystemS) (level : LogLevel) (message : String)
    (ts : Nat) (timeStr : String) : AsyncLogSystemS :=
  if a.running = false then
    { a with base := logSync a.base level message ts timeStr }
  else if a.maxQueueSize ≤ a.queue.length then
    { a with cerrLines := a.cerrLines ++ [queueFullWarning message] }
  else
    { a with queue := a.queue ++ [{ level := level, message := message, timestamp := ts }] }

end log_system

/-!  ## Concrete fixtures used by witnesses and counterexamples -/

namespace async_log

/-- A manager state at the configured soft capacity: running, default
config, queue holding exactly `maxQueueSize` (10000) records. -/
def c1state : LogManagerS :=
  { running := true, shouldStop := false, config := some {}
    queue := List.replicate 10000 (mkLogMessage .INFO "m" 0 0)
    delivered := [], dispatcherFlushes := 0 }

/-- An INFO record with message "hi". -/
def c2msg : LogMessage := mkLogMessage .INFO "hi" 0 0

/-- The chain Color wrapping Timestamp wrapping a capturing sink
(default time format), as built by `createDefaultOutputs`. -/
def c2chain : OutputTree :=
  .colorDec true (.timestampDec "%Y-%m-%d %H:%M:%S" (.sink []))

/-- A running manager with two queued records and one already-delivered
record. -/
def c3state : LogManagerS :=
  { running := true, shouldStop := false, config := some {}
    queue := [mkLogMessage .INFO "a" 1 1, mkLogMessage .WARN "b" 2 2]
    delivered := [mkLogMessage .DEBUG "c" 0 0], dispatcherFlushes := 3 }

/-- An always-succeeding available sink. -/
def c5sinkOk : Sink := { available := true, writeThrows := fun _ => false }

/-- An available sink whose `write` always throws. -/
def c5sinkBad : Sink := { available := true, writeThrows := fun _ => true }

/-- An unavailable sink. -/
def c5sinkOff : Sink := { available := false, writeThrows := fun _ => false }

/-- A broadcast dispatcher over [ok, throwing, ok, unavailable]. -/
def c5disp : LogDispatcher :=
  { outputs := [c5sinkOk, c5sinkBad, c5sinkOk, c5sinkOff]
    messageFilter := none, routeFunction := none
    routingStrategy := 0, roundRobinCounter := 0 }

/-- The record dispatched in the C5 witness. -/
def c5msg : LogMessage := mkLogMessage .ERROR "boom" 0 0

/-- A fresh manager whose configured minimum severity is WARN. -/
def c6state : LogManagerS :=
  { LogManagerS.init with config := some { minLevel := .WARN } }

/-- An always-succeeding available sink for the round-robin witness. -/
def c7sink : Sink := { available := true, writeThrows := fun _ => false }

/-- A round-robin dispatcher (strategy 1) over two available sinks. -/
def c7disp : LogDispatcher :=
  { outputs := [c7sink, c7sink], messageFilter := none
    routeFunction := none, routingStrategy := 1, roundRobinCounter := 0 }

/-- Four records for the round-robin witness (m = 2 rounds over k = 2
sinks). -/
def c7msgs : List LogMessage :=
  [mkLogMessage .INFO "0" 0 0, mkLogMessage .INFO "1" 0 0,
   mkLogMessage .INFO "2" 0 0, mkLogMessage .INFO "3" 0 0]

/-- A fresh manager state made running, for the idempotence witness. -/
def c8state : LogManagerS := { LogManagerS.init with running := true }

/-- A record with every origin field populated, for the decorator
frame-effect witness. -/
def c9msg : LogMessage :=
  { level := .WARN, message := "w  x", file := "f.cpp", line := 9
    function := "fn", timestamp := 5, threadId := 6 }

/-- An always-succeeding available sink for the routing-range witness. -/
def c10sink : Sink := { available := true, writeThrows := fun _ => false }

/-- A dispatcher with two sinks and a custom route function returning
the out-of-range index 5. -/
def c10disp : LogDispatcher :=
  { outputs := [c10sink, c10sink], messageFilter := none
    routeFunction := some (fun _ => 5), routingStrategy := 0
    roundRobinCounter := 0 }

/-- The record dispatched in the C10 witness. -/
def c10msg : LogMessage := mkLogMessage .INFO "route" 0 0

end async_log

namespace log_system

/-- A legacy base system with default config. -/
def c1asyncBase : LogSystemS :=
  { config := {}, initialized := true, consoleLines := [] }

/-- A running legacy async system whose queue is at `maxQueueSize`. -/
def c1async : AsyncLogSystemS :=
  { base := c1asyncBase
    queue := [{ level := .INFO, message := "q0", timestamp := 0 },
              { level := .INFO, message := "q1", timestamp := 0 }]
    running := true, initialized := true, maxQueueSize := 2
    workerTimeoutMs := 100, cerrLines := [] }

end log_system

/-!  ## Theorems -/

namespace async_log

theorem queuePush_foldl {α : Type} (q : List α) (xs : List α) :
    xs.foldl queuePush q = q ++ xs := by
  induction xs generalizing q with
  | nil => simp
  | cons x xs ih => simp [queuePush, ih, List.append_assoc]

theorem popBatch_eq_take_drop {α : Type} (q : List α) (m : Nat) :
    popBatch q m = (q.take m, q.drop m) := by
  induction q generalizing m with
  | nil => cases m <;> simp [popBatch]
  | cons x xs ih =>
    cases m with
    | zero => simp [popBatch]
    | succ n => simp [popBatch, ih]

theorem drainLoop_drains (batch : Nat) (hb : 0 < batch) :
    ∀ fuel q, q.length ≤ fuel → drainLoop batch fuel q = (q, []) := by
  intro fuel
  induction fuel with
  | zero =>
    intro q hq
    have : q = [] := List.length_eq_zero.mp (Nat.le_zero.mp hq)
    subst this
    rfl
  | succ n ih =>
    intro q hq
    cases q with
    | nil => simp [drainLoop, popBatch_eq_take_drop]
    | cons x xs =>
      have hlen : ((x :: xs).take batch).length ≠ 0 := by
        simp only [List.length_take, List.length_cons]
        omega
      have hdrop : ((x :: xs).drop batch).length ≤ n := by
        simp only [List.length_drop, List.length_cons]
        simp only [List.length_cons] at hq
        omega
      simp only [drainLoop, popBatch_eq_take_drop, hlen, if_false, ih _ hdrop]
      simp [List.take_append_drop]

/-- C4: a queue built by a sequence of completed pushes holds exactly the
pushed elements in order; `popBatch(items, maxCount)` then returns
min(n, maxCount) elements, which are the first min(n, maxCount) pushed
elements in FIFO push order, and removes exactly those elements from
the queue. -/
theorem popBatch_fifo (pushes : List LogMessage) (maxCount : Nat) :
    (popBatch (pushes.foldl queuePush []) maxCount).1.length = min pushes.length maxCount ∧
    (popBatch (pushes.foldl queuePush []) maxCount).1 = pushes.take maxCount ∧
    (popBatch (pushes.foldl queuePush []) maxCount).2 = pushes.drop maxCount := by
  rw [queuePush_foldl, List.nil_append, popBatch_eq_take_drop]
  refine ⟨?_, rfl, rfl⟩
  simp [List.length_take, Nat.min_comm]

/-- C6: a record whose severity is strictly below the configured minimum
is discarded by `log` (and by the five-argument overload) without any
queue interaction — the manager state, in particular the queue, is
unchanged — so the record is never enqueued and no sink can ever see
it; the per-severity convenience wrappers are definitionally calls to
`log` at their fixed level. -/
theorem below_min_no_queue_interaction
    (s : LogManagerS) (c : LogConfig) (level : LogLevel)
    (message file function : String) (line : Int) (ts thr : Nat)
    (hc : s.config = some c) (hlt : level.toNat < c.minLevel.toNat) :
    s.log level message ts thr = s ∧
    s.logAt level message file line function ts thr = s ∧
    (s.log level message ts thr).queue = s.queue ∧
    s.debug message ts thr = s.log .DEBUG message ts thr ∧
    s.info message ts thr = s.log .INFO message ts thr ∧
    s.warn message ts thr = s.log .WARN message ts thr ∧
    s.error message ts thr = s.log .ERROR message ts thr ∧
    s.fatal message ts thr = s.log .FATAL message ts thr := by
  have h : s.shouldLog level = false := by
    simp only [LogManagerS.shouldLog, hc, decide_eq_false_iff_not]
    omega
  refine ⟨?_, ?_, ?_, rfl, rfl, rfl, rfl, rfl⟩ <;>
    simp [LogManagerS.log, LogManagerS.logAt, h]

/-- Witness for C6 at a concrete manager (minimum WARN) and a DEBUG
record. -/
theorem below_min_no_queue_interaction_witness :
    c6state.log .DEBUG "dbg" 1 2 = c6state :=
  (below_min_no_queue_interaction c6state { minLevel := .WARN } .DEBUG
    "dbg" "" "" 0 1 2 rfl (by decide)).1

/-- C8: `start()` on a running pipeline is a no-op returning success
(and `start` always reports success), `stop()` on a non-running
pipeline is a no-op, and for every pipeline state `stop();stop()` has
the same effect as a single `stop()`. -/
theorem start_stop_idempotent (s : LogManagerS) :
    (s.running = true → s.start = (s, true)) ∧
    (s.running = false → s.stop = s) ∧
    s.start.2 = true ∧
    s.stop.stop = s.stop := by
  refine ⟨?_, ?_, ?_, ?_⟩
  · intro h; simp [LogManagerS.start, h]
  · intro h; simp [LogManagerS.stop, h]
  · by_cases h : s.running <;> simp [LogManagerS.start, h]
  · by_cases h : s.running <;>
      simp [LogManagerS.stop, h, LogManagerS.flushOp, workerFinish]

/-- Witness for C8 at a concrete running manager. -/
theorem start_stop_idempotent_witness : c8state.start = (c8state, true) :=
  (start_stop_idempotent c8state).1 rfl

end async_log

namespace async_log

/-- C3: calling `stop()` on a running controller makes the worker loop
exit (a worker step with the stop signal set is a no-op), runs the
final `popBatch` drain until the queue reports empty, forwards every
record that was in the queue to the dispatcher exactly once in FIFO
order, flushes the sinks, and leaves an empty, non-running pipeline. -/
theorem stop_drains_queue (s : LogManagerS) (h : s.running = true) :
    s.stop.queue = [] ∧
    s.stop.delivered = s.delivered ++ s.queue ∧
    s.stop.running = false ∧
    s.stop.dispatcherFlushes = s.dispatcherFlushes + 1 ∧
    workerStep { s with shouldStop := true, running := false } =
      { s with shouldStop := true, running := false } := by
  have hd := drainLoop_drains workerBatchSize (by decide) s.queue.length s.queue le_rfl
  refine ⟨?_, ?_, ?_, ?_, ?_⟩ <;>
    simp [LogManagerS.stop, h, workerFinish, LogManagerS.flushOp, hd, workerStep]

/-- Witness for C3 at a concrete running manager with two queued
records. -/
theorem stop_drains_queue_witness :
    c3state.stop.queue = [] ∧
    c3state.stop.delivered =
      [mkLogMessage .DEBUG "c" 0 0, mkLogMessage .INFO "a" 1 1,
       mkLogMessage .WARN "b" 2 2] := by
  have h := stop_drains_queue c3state rfl
  exact ⟨h.1, h.2.1.trans (by decide)⟩

theorem writeTargets_spec (outputs : List Sink) (msg : LogMessage) :
    ∀ targets : List Nat,
      (writeTargets outputs msg targets).2 = targets.filter (sinkInvocable outputs) ∧
      (writeTargets outputs msg targets).1 = targets.countP (sinkSucceeds outputs msg) := by
  intro targets
  induction targets with
  | nil => simp [writeTargets]
  | cons i rest ih =>
    cases hg : outputs[i]? with
    | none =>
      simp [writeTargets, List.filter_cons, List.countP_cons,
        sinkInvocable, sinkSucceeds, hg, ih]
    | some s =>
      by_cases ha : s.available
      · by_cases ht : s.writeThrows msg
        · simp [writeTargets, List.filter_cons, List.countP_cons,
            sinkInvocable, sinkSucceeds, hg, ha, ht, ih]
        · simp [writeTargets, List.filter_cons, List.countP_cons,
            sinkInvocable, sinkSucceeds, hg, ha, ht, ih]
          omega
      · simp [writeTargets, List.filter_cons, List.countP_cons,
          sinkInvocable, sinkSucceeds, hg, ha, ih]

/-- C5: `dispatch` returns the number of targeted sinks whose `write`
succeeded; a record rejected by the optional filter yields 0 with no
sink interaction; `write` is invoked exactly on the in-range available
targets — a sink whose `write` throws is still invoked (and its
exception is absorbed, since `dispatch` is a total function) but not
counted, and every remaining target is still written to. -/
theorem dispatch_isolation (d : LogDispatcher) (rand : Nat) (msg : LogMessage) :
    (shouldDispatch d msg = false → dispatch d rand msg = (0, [], d)) ∧
    (shouldDispatch d msg = true →
      (dispatch d rand msg).2.1 =
        (getTargetOutputs d rand msg).1.filter (sinkInvocable d.outputs) ∧
      (dispatch d rand msg).1 =
        (getTargetOutputs d rand msg).1.countP (sinkSucceeds d.outputs msg)) := by
  constructor
  · intro h; simp [dispatch, h]
  · intro h
    have hw := writeTargets_spec d.outputs msg (getTargetOutputs d rand msg).1
    simp [dispatch, h, hw.1, hw.2]

/-- Witness for C5: broadcasting to [ok, throwing, ok, unavailable]
invokes write on indices 0, 1, 2 and reports 2 successes. -/
theorem dispatch_isolation_witness :
    (dispatch c5disp 0 c5msg).2.1 = [0, 1, 2] ∧
    (dispatch c5disp 0 c5msg).1 = 2 := by
  have h := (dispatch_isolation c5disp 0 c5msg).2 rfl
  exact ⟨h.1.trans rfl, h.2.trans rfl⟩

/-- C10: when a custom route function is set and returns an index that
is not strictly below the number of registered sinks, `dispatch`
treats the target set as empty: it returns 0, invokes no sink's
`write`, and leaves the dispatcher unchanged. -/
theorem custom_route_out_of_range (d : LogDispatcher) (rand : Nat)
    (msg : LogMessage) (f : LogMessage → Nat) (hf : d.routeFunction = some f)
    (hr : d.outputs.length ≤ f msg) :
    dispatch d rand msg = (0, [], d) := by
  by_cases h : shouldDispatch d msg = false
  · simp [dispatch, h]
  · have ht : getTargetOutputs d rand msg = ([], d) := by
      simp only [getTargetOutputs, hf]
      rw [if_neg (by omega)]
    simp [dispatch, h, ht, writeTargets]

/-- Witness for C10 at a concrete dispatcher with two sinks and a route
function returning 5. -/
theorem custom_route_out_of_range_witness :
    dispatch c10disp 0 c10msg = (0, [], c10disp) :=
  custom_route_out_of_range c10disp 0 c10msg (fun _ => 5) rfl (by decide)

end async_log

namespace async_log

/-- C9: each built-in decorator (Timestamp, Color, Compression, Filter,
Format), given any input record, forwards to its wrapped output only
records that agree with the input on level, file, line, function,
timestamp and thread identity — the forwarded copy differs at most in
the message field, and the input value itself is never mutated (the
transforms build a new record). -/
theorem decorator_preserves_fields (ts fmtT fmtF : String) (enable : Bool)
    (minSize : Nat) (p : Option (LogMessage → Bool)) (m : LogMessage) :
    (∀ r ∈ capturedRecords (writeTree ts (.timestampDec fmtT (.sink [])) m),
      agreesExceptMessage m r) ∧
    (∀ r ∈ capturedRecords (writeTree ts (.colorDec enable (.sink [])) m),
      agreesExceptMessage m r) ∧
    (∀ r ∈ capturedRecords (writeTree ts (.compressionDec enable minSize (.sink [])) m),
      agreesExceptMessage m r) ∧
    (∀ r ∈ capturedRecords (writeTree ts (.filterDec p (.sink [])) m),
      agreesExceptMessage m r) ∧
    (∀ r ∈ capturedRecords (writeTree ts (.formatDec fmtF (.sink [])) m),
      agreesExceptMessage m r) := by
  refine ⟨?_, ?_, ?_, ?_, ?_⟩
  · intro r hr
    simp [writeTree, capturedRecords] at hr
    subst hr
    exact ⟨rfl, rfl, rfl, rfl, rfl, rfl⟩
  · intro r hr
    by_cases he : enable = true <;>
    · simp [writeTree, capturedRecords, he] at hr
      subst hr
      exact ⟨rfl, rfl, rfl, rfl, rfl, rfl⟩
  · intro r hr
    by_cases hc : (enable && decide (minSize ≤ m.message.length)) = true <;>
    · simp only [writeTree, capturedRecords, hc, if_true, if_false,
        Bool.not_eq_true] at hr
      simp at hr
      subst hr
      exact ⟨rfl, rfl, rfl, rfl, rfl, rfl⟩
  · intro r hr
    by_cases hp : shouldPass p m = true
    · simp [writeTree, capturedRecords, hp] at hr
      subst hr
      exact ⟨rfl, rfl, rfl, rfl, rfl, rfl⟩
    · simp [writeTree, capturedRecords, hp] at hr
  · intro r hr
    simp [writeTree, capturedRecords] at hr
    subst hr
    exact ⟨rfl, rfl, rfl, rfl, rfl, rfl⟩

/-- Witness for C9: the Timestamp decorator at a concrete record
forwards a copy agreeing on every non-message field. -/
theorem decorator_preserves_fields_witness :
    agreesExceptMessage c9msg { c9msg with message := "[T] w  x" } := by
  have h := (decorator_preserves_fields "T" "%F" "tpl" true 0 none c9msg).1
  exact h _ (by decide)

/-- Counterexample to C2 as stated: with the chain Color wrapping
Timestamp wrapping a capturing sink and input message "hi", the sink
receives one record whose message is the timestamp prefix around the
colored text — not `colorCode ++ "[" ++ timestamp ++ "] hi" ++
resetCode` as the claim requires. -/
theorem color_timestamp_chain_counterexample :
    (capturedRecords (writeTree "2025-08-25 11:25:00" c2chain c2msg)).map
        LogMessage.message =
      ["[2025-08-25 11:25:00] \x1b[32mhi\x1b[0m"] ∧
    (capturedRecords (writeTree "2025-08-25 11:25:00" c2chain c2msg)).map
        LogMessage.message ≠
      [getColorCode .INFO ++ "[2025-08-25 11:25:00] hi" ++ getResetCode] := by
  constructor
  · rfl
  · decide

/-- C2 (amended): the chain Color wrapping Timestamp wrapping a
capturing sink delivers exactly one record to the sink, whose message
is `"[" ++ timestamp ++ "] " ++ colorCode(level) ++ msg ++ resetCode` —
the outermost decorator (Color) applies its transformation first, so
the innermost decorator (Timestamp) is the last transformation
observed by the sink. -/
theorem color_timestamp_chain_amended (ts fmt : String) (m : LogMessage) :
    capturedRecords (writeTree ts (.colorDec true (.timestampDec fmt (.sink []))) m) =
      [{ m with message :=
          "[" ++ ts ++ "] " ++ (getColorCode m.level ++ m.message ++ getResetCode) }] := by
  simp [writeTree, capturedRecords]

end async_log

namespace async_log

theorem rr_dispatch_invoked (d : LogDispatcher) (msg : LogMessage)
    (hfilter : d.messageFilter = none) (hroute : d.routeFunction = none)
    (hstrat : d.routingStrategy = 1) (hk : d.outputs.length ≠ 0)
    (hav : ∀ s ∈ d.outputs, s.available = true) :
    (dispatch d 0 msg).2.1 = [d.roundRobinCounter % d.outputs.length] ∧
    (dispatch d 0 msg).2.2 = { d with roundRobinCounter := d.roundRobinCounter + 1 } := by
  have hsd : shouldDispatch d msg = true := by simp [shouldDispatch, hfilter]
  have ht : getTargetOutputs d 0 msg =
      ([d.roundRobinCounter % d.outputs.length],
       { d with roundRobinCounter := d.roundRobinCounter + 1 }) := by
    simp [getTargetOutputs, hroute, defaultRouting, hstrat, roundRobinRouting, hk]
  have hmod : d.roundRobinCounter % d.outputs.length < d.outputs.length :=
    Nat.mod_lt _ (Nat.pos_of_ne_zero hk)
  have hinv : sinkInvocable d.outputs (d.roundRobinCounter % d.outputs.length) = true := by
    unfold sinkInvocable
    rw [List.getElem?_eq_getElem hmod]
    exact hav _ (d.outputs.getElem_mem hmod)
  have hw := writeTargets_spec d.outputs msg [d.roundRobinCounter % d.outputs.length]
  constructor
  · simp [dispatch, hsd, ht, hw.1, hinv]
  · simp [dispatch, hsd, ht]

theorem rr_dispatchSeq (k : Nat) (hk : k ≠ 0) :
    ∀ (msgs : List LogMessage) (d : LogDispatcher),
      d.messageFilter = none → d.routeFunction = none →
      d.routingStrategy = 1 → d.outputs.length = k →
      (∀ s ∈ d.outputs, s.available = true) →
      (dispatchSeq d msgs).1 =
        (List.range msgs.length).map (fun j => [(d.roundRobinCounter + j) % k]) := by
  intro msgs
  induction msgs with
  | nil =>
    intro d _ _ _ _ _
    simp [dispatchSeq]
  | cons m ms ih =>
    intro d hf hr hs hl hav
    have hk0 : d.outputs.length ≠ 0 := by rw [hl]; exact hk
    have h1 := rr_dispatch_invoked d m hf hr hs hk0 hav
    have ih2 := ih { d with roundRobinCounter := d.roundRobinCounter + 1 } hf hr hs hl hav
    have ih3 : (dispatchSeq { d with roundRobinCounter := d.roundRobinCounter + 1 } ms).1 =
        (List.range ms.length).map (fun j => [(d.roundRobinCounter + 1 + j) % k]) := ih2
    simp only [dispatchSeq, h1.1, h1.2, hl, List.length_cons]
    rw [ih3, List.range_succ_eq_map, List.map_cons, List.map_map]
    congr 1
    apply List.map_congr_left
    intro a _
    simp only [Function.comp_apply]
    congr 2
    omega

theorem flatten_singletons {α β : Type} (f : α → β) (l : List α) :
    (l.map fun j => [f j]).flatten = l.map f := by
  induction l with
  | nil => rfl
  | cons x xs ih => simp [ih]

theorem count_mod_range (k i : Nat) (hi : i < k) :
    ∀ m, ((List.range (m * k)).map (· % k)).count i = m := by
  intro m
  induction m with
  | zero => simp
  | succ n ih =>
    have hmul : (n + 1) * k = n * k + k := by ring
    rw [hmul, List.range_add, List.map_append, List.count_append, ih]
    have hmap : (List.map (fun x => n * k + x) (List.range k)).map (· % k) =
        (List.range k).map id := by
      rw [List.map_map]
      apply List.map_congr_left
      intro a ha
      have halt : a < k := List.mem_range.mp ha
      simp only [Function.comp, id]
      rw [Nat.add_comm, Nat.add_mul_mod_self_right]
      exact Nat.mod_eq_of_lt halt
    rw [hmap, List.map_id,
      List.count_eq_one_of_mem (List.nodup_range k) (List.mem_range.mpr hi)]

/-- C7: with round-robin routing (strategy 1), k registered available
sinks, counter starting at 0, and m·k records that all pass the filter,
each record is delivered to exactly one sink — the j-th record to sink
j mod k, i.e. sinks are selected in cyclic order by the incremented
counter modulo k — and each sink index receives exactly m records. -/
theorem roundRobin_balanced (k m : Nat) (d : LogDispatcher)
    (msgs : List LogMessage) (hk : 0 < k) (houts : d.outputs.length = k)
    (hav : ∀ s ∈ d.outputs, s.available = true)
    (hfilter : d.messageFilter = none) (hroute : d.routeFunction = none)
    (hstrat : d.routingStrategy = 1) (hctr : d.roundRobinCounter = 0)
    (hlen : msgs.length = m * k) :
    (dispatchSeq d msgs).1 = (List.range (m * k)).map (fun j => [j % k]) ∧
    ∀ i, i < k → ((dispatchSeq d msgs).1.flatten).count i = m := by
  have h1 := rr_dispatchSeq k (Nat.pos_iff_ne_zero.mp hk) msgs d hfilter hroute
    hstrat houts hav
  rw [hctr, hlen] at h1
  simp only [Nat.zero_add] at h1
  refine ⟨h1, ?_⟩
  intro i hi
  rw [h1, flatten_singletons]
  exact count_mod_range k i hi m

/-- Witness for C7: two sinks, four records, delivered cyclically
[0], [1], [0], [1]. -/
theorem roundRobin_balanced_witness :
    (dispatchSeq c7disp c7msgs).1 = [[0], [1], [0], [1]] := by
  have hav : ∀ s ∈ c7disp.outputs, s.available = true := by
    intro s hs
    rcases List.mem_cons.mp hs with rfl | hs2
    · rfl
    rcases List.mem_cons.mp hs2 with rfl | hs3
    · rfl
    · exact absurd hs3 (List.not_mem_nil s)
  have h := roundRobin_balanced 2 2 c7disp c7msgs (by decide) rfl hav rfl rfl rfl rfl rfl
  exact h.1.trans (by decide)

end async_log

namespace async_log

/-- Counterexample to C1 as stated: at a concrete running manager whose
queue length equals the configured soft capacity (`maxQueueSize` =
10000) and an INFO record at or above the minimum severity,
`LogManager::log` does not drop the incoming record — it enqueues it,
growing the queue past the soft capacity (the code performs no
capacity check and maintains no dropped-record counter). -/
theorem log_capacity_counterexample :
    c1state.running = true ∧
    c1state.shouldLog .INFO = true ∧
    c1state.config = some {} ∧
    (LogConfig.maxQueueSize {}) ≤ c1state.queue.length ∧
    (c1state.log .INFO "overflow-probe" 7 7).queue =
      c1state.queue ++ [mkLogMessage .INFO "overflow-probe" 7 7] := by
  refine ⟨rfl, rfl, rfl, ?_, ?_⟩
  · show LogConfig.maxQueueSize {} ≤
      (List.replicate 10000 (mkLogMessage .INFO "m" 0 0)).length
    rw [List.length_replicate]
  · have h : c1state.shouldLog .INFO = true := rfl
    simp only [LogManagerS.log, h, Bool.true_eq_false, if_false, queuePush]

end async_log

/-- C1 (amended): the capacity policy lives only in the legacy
`AsyncLogSystem::logAsync`: on a running system it drops the incoming
record without enqueueing it — emitting a stderr warning; no
dropped-record counter exists — exactly when the queue length is at or
above `maxQueueSize`, and pushes it otherwise; in both branches the
call returns normally (the embedded operation is total, so no
exception reaches the caller).  `LogManager::log` performs no capacity
check at all: every record at or above the configured minimum severity
is pushed regardless of the queue length. -/
theorem log_overflow_amended (a : log_system.AsyncLogSystemS)
    (level : log_system.LogLevel) (message : String) (ts : Nat) (timeStr : String)
    (s : async_log.LogManagerS) (level2 : async_log.LogLevel)
    (message2 : String) (ts2 thr2 : Nat)
    (ha : a.running = true) (hs : s.shouldLog level2 = true) :
    (a.maxQueueSize ≤ a.queue.length →
      (log_system.logAsync a level message ts timeStr).queue = a.queue ∧
      (log_system.logAsync a level message ts timeStr).cerrLines =
        a.cerrLines ++ [log_system.queueFullWarning message]) ∧
    (a.queue.length < a.maxQueueSize →
      (log_system.logAsync a level message ts timeStr).queue =
        a.queue ++ [{ level := level, message := message, timestamp := ts }]) ∧
    (s.log level2 message2 ts2 thr2).queue =
      s.queue ++ [async_log.mkLogMessage level2 message2 ts2 thr2] := by
  refine ⟨?_, ?_, ?_⟩
  · intro hfull
    constructor <;> simp [log_system.logAsync, ha, hfull]
  · intro hroom
    simp [log_system.logAsync, ha, Nat.not_le.mpr hroom]
  · simp [async_log.LogManagerS.log, hs, async_log.queuePush]

/-- Witness for C1 (amended) at a concrete running legacy system whose
queue is at capacity: the record is dropped and the warning is
printed. -/
theorem log_overflow_amended_witness :
    (log_system.logAsync log_system.c1async .ERROR "late" 9 "t").queue =
      log_system.c1async.queue ∧
    (log_system.logAsync log_system.c1async .ERROR "late" 9 "t").cerrLines =
      log_system.c1async.cerrLines ++ [log_system.queueFullWarning "late"] := by
  have h := log_overflow_amended log_system.c1async .ERROR "late" 9 "t"
    async_log.LogManagerS.init .INFO "m" 0 0 rfl rfl
  exact h.1 (by decide)
